import Mathlib

/-!
Shallow embedding of `src/web_uptime_monitor/src/main.rs`.

Timestamps are modelled as Unix seconds (`Nat`).  The chrono chain
`with_minute(0).with_second(0).with_nanosecond(0)` is hour truncation on such a
timestamp, and the additional `with_hour(0)` is day truncation.  SQL `COUNT`
values are non-negative, so the `int2` division in the uptime queries is `Nat`
division.  Fallible operations (sqlx queries, reqwest sends) are modelled as
`Except String`-valued inputs, and a Rust `.unwrap()` of a failure value, which
panics and kills the surrounding task, is modelled as `Option.none`.
-/

structure Website where
  url : String
  alias_ : String
deriving DecidableEq

structure WebsiteStats where
  time : Nat
  uptime_pct : Option Int
deriving DecidableEq

structure Incident where
  time : Nat
  statis : Int
deriving DecidableEq

inductive SplitBy where
  | Hour
  | Day
deriving DecidableEq

inductive ApiError where
  | SQLError (e : String)
deriving DecidableEq

/-- Embeds `impl IntoResponse for ApiError` (main.rs 76-87): an internal server
error response, status 500, with the SQL error description in the body. -/
def intoResponse : ApiError → Nat × String
  | ApiError.SQLError e => (500, "SQL Error: " ++ e)

/-- Embeds the sweep body of `check_websites` (main.rs 115-128): stream the website
rows, probe each one and insert a log row, with `.unwrap()` applied to the row,
to the probe result and to the insert result.  A failure of any of the three
panics the scheduler task, modelled as `none`; `some samples` is a completed
sweep with its recorded (alias_, status) samples in order. -/
def check_websites_sweep (probe : String → Except String Int)
    (insert : String → Int → Except String Unit) :
    List (Except String Website) → Option (List (String × Int))
  | [] => some []
  | w :: ws =>
    match w with
    | Except.error _ => none
    | Except.ok website =>
      match probe website.url with
      | Except.error _ => none
      | Except.ok status =>
        match insert website.alias_ status with
        | Except.error _ => none
        | Except.ok _ =>
          (check_websites_sweep probe insert ws).map
            (fun rest => (website.alias_, status) :: rest)

/-- Embeds `with_minute(0).with_second(0).with_nanosecond(0)` on a Unix timestamp. -/
def hourTrunc (t : Nat) : Nat := t / 3600 * 3600

/-- Embeds `with_hour(0)` applied after the sub-hour fields were zeroed. -/
def dayTrunc (t : Nat) : Nat := t / 86400 * 86400

/-- Candidate bucket boundary computed by one fill-loop iteration (main.rs 246-259). -/
def candTime (format : SplitBy) (no_of_seconds : Nat) (now : Nat) (i : Nat) : Nat :=
  match format with
  | SplitBy.Hour => hourTrunc (now - no_of_seconds * i)
  | SplitBy.Day => dayTrunc (hourTrunc (now - no_of_seconds * i))

/-- Fill loop of `fill_data_gaps` (main.rs 245-268) over an explicit list of loop
indices, appending a placeholder row for each candidate boundary whose timestamp
is not already present in the data. -/
def fillLoop (format : SplitBy) (no_of_seconds : Nat) (now : Nat) :
    List WebsiteStats → List Nat → List WebsiteStats
  | data, [] => data
  | data, i :: is =>
    if data.any (fun x => x.time == candTime format no_of_seconds now i) then
      fillLoop format no_of_seconds now data is
    else
      fillLoop format no_of_seconds now
        (data ++ [⟨candTime format no_of_seconds now i, none⟩]) is

/-- Insertion step of the stable descending-by-time sort. -/
def insertDesc (x : WebsiteStats) : List WebsiteStats → List WebsiteStats
  | [] => [x]
  | y :: ys => if x.time ≤ y.time then y :: insertDesc x ys else x :: y :: ys

/-- Embeds `data.sort_by(|a, b| b.time.cmp(&a.time))`: a stable sort by time
descending, realised as insertion sort. -/
def sortDesc : List WebsiteStats → List WebsiteStats
  | [] => []
  | x :: xs => insertDesc x (sortDesc xs)

/-- Embeds `fill_data_gaps` (main.rs 239-275).  The loop indices are the source's
hard-coded `1..24`, independent of `splits`, and the descending sort happens only
in the fill branch. -/
def fill_data_gaps (data : List WebsiteStats) (splits : Nat) (format : SplitBy)
    (no_of_seconds : Nat) (now : Nat) : List WebsiteStats :=
  if data.length < splits then
    sortDesc (fillLoop format no_of_seconds now data (List.range' 1 23))
  else
    data

/-- Uptime percentage computed by the SQL of `get_daily_stats` / `get_monthly_stats`:
`COUNT(CASE WHEN status=200 THEN 1 END) * 100 / COUNT(*)`, applied to the status
codes of one bucket.  Both counts are non-negative, so the `int2` division is
`Nat` division, truncating toward zero. -/
def bucketPct (statuses : List Int) : Nat :=
  statuses.countP (fun s => s == 200) * 100 / statuses.length

/-- Row produced by the grouped uptime query for a bucket at `time` whose samples
have status codes `statuses` (a queried bucket always holds at least one sample). -/
def bucketRow (time : Nat) (statuses : List Int) : WebsiteStats :=
  ⟨time, some (bucketPct statuses)⟩

/-- Success path of `get_daily_stats` (main.rs 185-206): the queried rows followed
by `fill_data_gaps` with 24 splits, hourly format, 3600 seconds. -/
def get_daily_statsOk (rows : List WebsiteStats) (now : Nat) : List WebsiteStats :=
  fill_data_gaps rows 24 SplitBy.Hour 3600 now

/-- Success path of `get_monthly_stats` (main.rs 212-233): the queried rows followed
by `fill_data_gaps` with 30 splits, daily format, 86400 seconds. -/
def get_monthly_statsOk (rows : List WebsiteStats) (now : Nat) : List WebsiteStats :=
  fill_data_gaps rows 30 SplitBy.Day 86400 now

/-- Embeds `get_daily_stats` (main.rs 185-206) with the query result as input; the
`?` operator maps a sqlx error into `ApiError.SQLError` and aborts the handler. -/
def get_daily_stats (q : Except String (List WebsiteStats)) (now : Nat) :
    Except ApiError (List WebsiteStats) :=
  match q with
  | Except.error e => Except.error (ApiError.SQLError e)
  | Except.ok rows => Except.ok (get_daily_statsOk rows now)

/-- Embeds `get_monthly_stats` (main.rs 212-233), analogously. -/
def get_monthly_stats (q : Except String (List WebsiteStats)) (now : Nat) :
    Except ApiError (List WebsiteStats) :=
  match q with
  | Except.error e => Except.error (ApiError.SQLError e)
  | Except.ok rows => Except.ok (get_monthly_statsOk rows now)

structure LogRow where
  website_alias : String
  created_at : Nat
  status : Int
deriving DecidableEq

/-- Embeds the incident query of `get_website_by_alias` (main.rs 291-299): the rows
of the logs table joined to the given alias_, restricted to `status != 200`, each
projected to (created_at, status).  The logs table is modelled as a list in
insertion order. -/
def incidentsQuery (logs : List LogRow) (alias_ : String) : List Incident :=
  (logs.filter (fun r => r.website_alias == alias_ && r.status != 200)).map
    (fun r => ⟨r.created_at, r.status⟩)

structure WebsiteInfo where
  url : String
  alias_ : String
  data : List WebsiteStats
deriving DecidableEq

structure SingleWebsiteLogs where
  log : WebsiteInfo
  incidents : List Incident
  monthly_data : List WebsiteStats
deriving DecidableEq

/-- Embeds `get_website_by_alias` (main.rs 281-312) with its four store reads as
inputs; each `?` converts a sqlx failure into `ApiError.SQLError` and aborts the
handler, so no partial result is ever built. -/
def get_website_by_alias (websiteQ : Except String Website)
    (dailyQ monthlyQ : Except String (List WebsiteStats))
    (incidentsQ : Except String (List Incident))
    (alias_ : String) (now : Nat) : Except ApiError SingleWebsiteLogs :=
  match websiteQ with
  | Except.error e => Except.error (ApiError.SQLError e)
  | Except.ok website =>
    match get_daily_stats dailyQ now with
    | Except.error e => Except.error e
    | Except.ok last_24_hours_data =>
      match get_monthly_stats monthlyQ now with
      | Except.error e => Except.error e
      | Except.ok monthly_data =>
        match incidentsQ with
        | Except.error e => Except.error (ApiError.SQLError e)
        | Except.ok incidents =>
          Except.ok ⟨⟨website.url, alias_, last_24_hours_data⟩, incidents, monthly_data⟩

/-!
Helper lemmas about the fill loop and the descending sort.
-/

/-- Membership in an insertion step of the descending sort. -/
theorem mem_insertDesc (a x : WebsiteStats) (l : List WebsiteStats) :
    a ∈ insertDesc x l ↔ a = x ∨ a ∈ l := by
  induction l with
  | nil => simp [insertDesc]
  | cons y ys ih =>
    by_cases h : x.time ≤ y.time
    · simp only [insertDesc, if_pos h, List.mem_cons, ih]
      tauto
    · simp only [insertDesc, if_neg h, List.mem_cons]

/-- Inserting into the descending sort is a permutation of consing. -/
theorem insertDesc_perm (x : WebsiteStats) (l : List WebsiteStats) :
    (insertDesc x l).Perm (x :: l) := by
  induction l with
  | nil => simp [insertDesc]
  | cons y ys ih =>
    by_cases h : x.time ≤ y.time
    · simp only [insertDesc, if_pos h]
      exact (ih.cons y).trans (List.Perm.swap x y ys)
    · simp only [insertDesc, if_neg h]
      exact List.Perm.refl _

/-- The descending sort is a permutation of its input. -/
theorem sortDesc_perm (l : List WebsiteStats) : (sortDesc l).Perm l := by
  induction l with
  | nil => simp [sortDesc]
  | cons x xs ih =>
    simp only [sortDesc]
    exact (insertDesc_perm x (sortDesc xs)).trans (ih.cons x)

/-- Inserting preserves descending-by-time sortedness. -/
theorem insertDesc_pairwise (x : WebsiteStats) (l : List WebsiteStats)
    (h : l.Pairwise (fun a b => b.time ≤ a.time)) :
    (insertDesc x l).Pairwise (fun a b => b.time ≤ a.time) := by
  induction l with
  | nil => simp [insertDesc]
  | cons y ys ih =>
    rw [List.pairwise_cons] at h
    by_cases hxy : x.time ≤ y.time
    · simp only [insertDesc, if_pos hxy]
      rw [List.pairwise_cons]
      refine ⟨?_, ih h.2⟩
      intro b hb
      rcases (mem_insertDesc b x ys).1 hb with rfl | hb
      · exact hxy
      · exact h.1 b hb
    · simp only [insertDesc, if_neg hxy]
      rw [List.pairwise_cons]
      refine ⟨?_, List.pairwise_cons.2 h⟩
      intro b hb
      rcases List.mem_cons.1 hb with rfl | hb
      · omega
      · have := h.1 b hb
        omega

/-- The descending sort output is sorted by time descending. -/
theorem sortDesc_pairwise (l : List WebsiteStats) :
    (sortDesc l).Pairwise (fun a b => b.time ≤ a.time) := by
  induction l with
  | nil => simp [sortDesc]
  | cons x xs ih =>
    simp only [sortDesc]
    exact insertDesc_pairwise x (sortDesc xs) ih

/-- The fill loop only appends placeholder rows with no uptime value. -/
theorem fillLoop_eq_append (format : SplitBy) (no_of_seconds now : Nat) :
    ∀ (cands : List Nat) (data : List WebsiteStats),
      ∃ extra : List WebsiteStats,
        fillLoop format no_of_seconds now data cands = data ++ extra ∧
        ∀ x ∈ extra, x.uptime_pct = none := by
  intro cands
  induction cands with
  | nil =>
    intro data
    exact ⟨[], by simp [fillLoop], by simp⟩
  | cons i is ih =>
    intro data
    by_cases h : data.any (fun x => x.time == candTime format no_of_seconds now i)
    · obtain ⟨extra, heq, hnone⟩ := ih data
      refine ⟨extra, ?_, hnone⟩
      simpa [fillLoop, h] using heq
    · obtain ⟨extra, heq, hnone⟩ :=
        ih (data ++ [⟨candTime format no_of_seconds now i, none⟩])
      refine ⟨⟨candTime format no_of_seconds now i, none⟩ :: extra, ?_, ?_⟩
      · simp only [fillLoop, if_neg h]
        rw [heq, List.append_assoc]
        rfl
      · intro x hx
        rcases List.mem_cons.1 hx with rfl | hx
        · rfl
        · exact hnone x hx

/-- The fill loop preserves pairwise-distinct timestamps: a placeholder is only
appended when its timestamp is absent. -/
theorem fillLoop_pairwise_ne (format : SplitBy) (no_of_seconds now : Nat) :
    ∀ (cands : List Nat) (data : List WebsiteStats),
      data.Pairwise (fun a b => a.time ≠ b.time) →
      (fillLoop format no_of_seconds now data cands).Pairwise
        (fun a b => a.time ≠ b.time) := by
  intro cands
  induction cands with
  | nil =>
    intro data h
    simpa [fillLoop] using h
  | cons i is ih =>
    intro data h
    by_cases hany : data.any (fun x => x.time == candTime format no_of_seconds now i)
    · simp only [fillLoop, if_pos hany]
      exact ih data h
    · simp only [fillLoop, if_neg hany]
      apply ih
      rw [List.pairwise_append]
      refine ⟨h, by simp, ?_⟩
      intro a ha b hb
      have hb' : b = ⟨candTime format no_of_seconds now i, none⟩ := by
        simpa using hb
      subst hb'
      intro hteq
      apply hany
      exact List.any_eq_true.2 ⟨a, ha, by simpa using hteq⟩

/-- The fill loop depends on the clock only through the candidate boundaries. -/
theorem fillLoop_congr (format : SplitBy) (no_of_seconds now1 now2 : Nat) :
    ∀ (cands : List Nat) (data : List WebsiteStats),
      (∀ i ∈ cands,
        candTime format no_of_seconds now1 i = candTime format no_of_seconds now2 i) →
      fillLoop format no_of_seconds now1 data cands =
        fillLoop format no_of_seconds now2 data cands := by
  intro cands
  induction cands with
  | nil =>
    intro data _
    simp [fillLoop]
  | cons i is ih =>
    intro data h
    have hi := h i (List.mem_cons_self i is)
    have his : ∀ j ∈ is,
        candTime format no_of_seconds now1 j = candTime format no_of_seconds now2 j :=
      fun j hj => h j (List.mem_cons_of_mem i hj)
    simp only [fillLoop, hi]
    by_cases hany : data.any (fun x => x.time == candTime format no_of_seconds now2 i)
    · rw [if_pos hany, if_pos hany]
      exact ih data his
    · rw [if_neg hany, if_neg hany]
      exact ih _ his

/-!
Claim theorems.
-/

/-- Concrete probe for the C1 failing input: endpoint b is unreachable. -/
def probeC1 : String → Except String Int := fun url =>
  if url == "https://b.test" then Except.error "connection timed out" else Except.ok 200

/-- Concrete sample insert for the C1 failing input: the store always succeeds. -/
def insertC1 : String → Int → Except String Unit := fun _ _ => Except.ok ()

/-- Concrete endpoint snapshot for the C1 failing input. -/
def websitesC1 : List (Except String Website) :=
  [Except.ok ⟨"https://a.test", "a"⟩, Except.ok ⟨"https://b.test", "b"⟩,
    Except.ok ⟨"https://c.test", "c"⟩]

/-- C1: the claim says a probe failure for one endpoint must not abort the sweep and
is converted into a recorded sentinel sample.  The code instead calls `.unwrap()` on
the probe result (main.rs 117), so the first unreachable endpoint panics the
scheduler task: with endpoint b unreachable the sweep aborts (`none`), records no
sentinel sample for b, and never reaches endpoint c — while the same sweep restricted
to the healthy endpoint a completes.  This evaluates the code at the failing input of
the code bug. -/
theorem check_websites_probe_failure_aborts_sweep :
    check_websites_sweep probeC1 insertC1 websitesC1 = none ∧
    check_websites_sweep probeC1 insertC1 [Except.ok ⟨"https://a.test", "a"⟩] =
      some [("a", 200)] := by
  constructor
  · rfl
  · rfl

/-- C2: the claim says `aggregate` returns exactly `bucket_count` points and the
gap-filling iterates over exactly `bucket_count` candidate boundaries derived from
its own parameter.  The fill loop is instead hard-coded to `1..24` (23 iterations,
main.rs 245), so the 30-bucket monthly aggregate of an empty query result has 23
points, not 30.  This evaluates the code at the failing input of the code bug. -/
theorem get_monthly_stats_hardcoded_fill_bound :
    (get_monthly_statsOk [] 1000000000).length = 23 := by decide

/-- C3: the claim says that with zero queried rows `aggregate` returns exactly
`bucket_count` points, all with no uptime value.  The points indeed all carry
`uptime_pct = none`, but the hard-coded `1..24` fill loop produces only 23 of them
even in the 24-bucket hourly case (the loop starts at 1 and so also skips the
current bucket boundary).  This evaluates the code at the failing input of the
code bug. -/
theorem get_daily_stats_empty_underfills :
    (get_daily_statsOk [] 1000000000).length = 23 ∧
    (get_daily_statsOk [] 1000000000).all (fun p => p.uptime_pct == none) = true := by
  constructor
  · decide
  · decide

/-- Concrete query result for the C4 counterexample: a full window of 24 hourly
rows in the ascending order produced by the SQL `ORDER BY time ASC`. -/
def rowsC4 : List WebsiteStats :=
  (List.range 24).map (fun i => ⟨3600 * i, some 100⟩)

/-- C4 counterexample: when the store already returns `bucket_count` (= 24) rows,
`fill_data_gaps` returns them as-is — in the query's ascending order, which is not
sorted by time descending, contradicting the claim's "sorted descending" part. -/
theorem get_daily_stats_full_window_not_descending :
    get_daily_statsOk rowsC4 1000000000 = rowsC4 ∧
    ¬ (get_daily_statsOk rowsC4 1000000000).Pairwise (fun a b => b.time < a.time) := by
  constructor
  · decide
  · decide

/-- C4 amended: if the store returns `bucket_count` or more rows, no synthesis
happens and the queried rows are returned exactly as-is, hence in the query's
ascending order rather than descending; only when synthesis occurs is the result
sorted by time descending; and pairwise-distinct bucket timestamps are preserved
in every case. -/
theorem fill_data_gaps_enough_rows (data : List WebsiteStats)
    (splits no_of_seconds now : Nat) (format : SplitBy) :
    (splits ≤ data.length → fill_data_gaps data splits format no_of_seconds now = data) ∧
    (data.length < splits →
      (fill_data_gaps data splits format no_of_seconds now).Pairwise
        (fun a b => b.time ≤ a.time)) ∧
    (data.Pairwise (fun a b => a.time ≠ b.time) →
      (fill_data_gaps data splits format no_of_seconds now).Pairwise
        (fun a b => a.time ≠ b.time)) := by
  refine ⟨?_, ?_, ?_⟩
  · intro h
    rw [fill_data_gaps, if_neg (Nat.not_lt.2 h)]
  · intro h
    rw [fill_data_gaps, if_pos h]
    exact sortDesc_pairwise _
  · intro h
    by_cases hlt : data.length < splits
    · rw [fill_data_gaps, if_pos hlt]
      have hfill := fillLoop_pairwise_ne format no_of_seconds now (List.range' 1 23) data h
      have hsymm : ∀ {x y : WebsiteStats}, x.time ≠ y.time → y.time ≠ x.time :=
        fun hxy => Ne.symm hxy
      exact ((sortDesc_perm _).pairwise_iff hsymm).2 hfill
    · rw [fill_data_gaps, if_neg hlt]
      exact h

/-- Witness for the C4 amended theorem at a concrete input. -/
theorem fill_data_gaps_enough_rows_witness :
    fill_data_gaps [⟨0, some 100⟩, ⟨3600, some 50⟩] 2 SplitBy.Hour 3600 1000000000 =
      [⟨0, some 100⟩, ⟨3600, some 50⟩] :=
  (fill_data_gaps_enough_rows [⟨0, some 100⟩, ⟨3600, some 50⟩] 2 3600 1000000000
    SplitBy.Hour).1 (by decide)

/-- C5: the incident query returns exactly the samples of the given alias whose
status is not 200, each projected to (time, status); no returned incident has
status 200; and because samples are appended in non-decreasing observation time
(the logs list is monotone), the result is in time order. -/
theorem incidentsQuery_sound_complete_ordered (logs : List LogRow) (alias_ : String)
    (hmono : logs.Pairwise (fun a b => a.created_at ≤ b.created_at)) :
    (∀ inc ∈ incidentsQuery logs alias_, inc.statis ≠ 200) ∧
    (∀ r ∈ logs, r.website_alias = alias_ → r.status ≠ 200 →
      (⟨r.created_at, r.status⟩ : Incident) ∈ incidentsQuery logs alias_) ∧
    (incidentsQuery logs alias_).Pairwise (fun a b => a.time ≤ b.time) := by
  refine ⟨?_, ?_, ?_⟩
  · intro inc hinc
    simp only [incidentsQuery, List.mem_map, List.mem_filter] at hinc
    obtain ⟨r, ⟨hr, hcond⟩, rfl⟩ := hinc
    simp only [Bool.and_eq_true, beq_iff_eq, bne_iff_ne, ne_eq] at hcond
    exact hcond.2
  · intro r hr h1 h2
    simp only [incidentsQuery, List.mem_map, List.mem_filter]
    refine ⟨r, ⟨hr, ?_⟩, rfl⟩
    simp [h1, h2]
  · exact List.Pairwise.map _ (fun a b h => h)
      (List.Pairwise.sublist (List.filter_sublist logs) hmono)

/-- Concrete logs table for the C5 witness. -/
def logsC5 : List LogRow :=
  [⟨"a", 1, 200⟩, ⟨"a", 2, 500⟩, ⟨"a", 3, 200⟩, ⟨"b", 4, 404⟩]

/-- Witness for the C5 theorem at a concrete logs table. -/
theorem incidentsQuery_witness :
    (∀ inc ∈ incidentsQuery logsC5 "a", inc.statis ≠ 200) ∧
    (∀ r ∈ logsC5, r.website_alias = "a" → r.status ≠ 200 →
      (⟨r.created_at, r.status⟩ : Incident) ∈ incidentsQuery logsC5 "a") ∧
    (incidentsQuery logsC5 "a").Pairwise (fun a b => a.time ≤ b.time) :=
  incidentsQuery_sound_complete_ordered logsC5 "a" (by decide)

/-- C6: for a non-empty bucket, the SQL uptime percentage is exactly the floor of
100·successes divided by the sample count (the two inequalities characterise it as
the truncation, never a rounding up), and in particular a bucket with 5 samples
and 2 successes yields 40 and one with 3 samples and 1 success yields 33. -/
theorem uptime_pct_truncates (statuses : List Int) (h : statuses ≠ []) :
    (bucketPct statuses * statuses.length ≤
        statuses.countP (fun s => s == 200) * 100 ∧
      statuses.countP (fun s => s == 200) * 100 <
        (bucketPct statuses + 1) * statuses.length) ∧
    bucketPct [200, 200, 500, 404, 0] = 40 ∧
    bucketPct [200, 500, 500] = 33 := by
  have hlen : 0 < statuses.length := List.length_pos.2 h
  refine ⟨⟨Nat.div_mul_le_self _ _, ?_⟩, by decide, by decide⟩
  exact (Nat.div_lt_iff_lt_mul hlen).1 (Nat.lt_succ_self _)

/-- Witness for the C6 theorem at a concrete bucket. -/
theorem uptime_pct_truncates_witness : bucketPct [200, 500, 500] = 33 :=
  (uptime_pct_truncates [200, 500, 500] (by decide)).2.2

/-- C7: when every queried row is a real bucket row (produced by the grouped query
over a non-empty bucket), every point of the filled series is either a real queried
row or a synthesized placeholder with `uptime_pct = none`; a point with
`uptime_pct = none` is never a real queried row; and a bucket with samples but zero
successes yields `some 0`, never `none` — the two states are not conflated. -/
theorem none_only_on_synthesized (buckets : List (Nat × List Int))
    (rows : List WebsiteStats)
    (hrows : rows = buckets.map (fun b => bucketRow b.1 b.2))
    (splits no_of_seconds now : Nat) (format : SplitBy) :
    (∀ p ∈ fill_data_gaps rows splits format no_of_seconds now,
      p ∈ rows ∨ p.uptime_pct = none) ∧
    (∀ p ∈ fill_data_gaps rows splits format no_of_seconds now,
      p.uptime_pct = none → p ∉ rows) ∧
    (∀ b ∈ buckets, b.2 ≠ [] → (∀ s ∈ b.2, s ≠ 200) →
      bucketRow b.1 b.2 = ⟨b.1, some 0⟩) := by
  have hsome : ∀ p ∈ rows, p.uptime_pct ≠ none := by
    intro p hp
    rw [hrows] at hp
    obtain ⟨b, _, rfl⟩ := List.mem_map.1 hp
    simp [bucketRow]
  refine ⟨?_, ?_, ?_⟩
  · intro p hp
    rw [fill_data_gaps] at hp
    by_cases hlt : rows.length < splits
    · rw [if_pos hlt] at hp
      obtain ⟨extra, heq, hnone⟩ :=
        fillLoop_eq_append format no_of_seconds now (List.range' 1 23) rows
      have hmem : p ∈ rows ++ extra := by
        rw [← heq]
        exact ((sortDesc_perm _).mem_iff).1 hp
      rcases List.mem_append.1 hmem with hin | hin
      · exact Or.inl hin
      · exact Or.inr (hnone p hin)
    · rw [if_neg hlt] at hp
      exact Or.inl hp
  · intro p _ hnone hmem
    exact hsome p hmem hnone
  · intro b _ _ hfail
    have hcnt : b.2.countP (fun s => s == 200) = 0 :=
      List.countP_eq_zero.2 (fun a ha => by simpa using hfail a ha)
    simp [bucketRow, bucketPct, hcnt]

/-- Witness for the C7 theorem at a concrete all-failures bucket. -/
theorem none_only_on_synthesized_witness :
    (∀ p ∈ fill_data_gaps [bucketRow 3600 [500, 500]] 24 SplitBy.Hour 3600 1000000000,
      p ∈ [bucketRow 3600 [500, 500]] ∨ p.uptime_pct = none) ∧
    (∀ p ∈ fill_data_gaps [bucketRow 3600 [500, 500]] 24 SplitBy.Hour 3600 1000000000,
      p.uptime_pct = none → p ∉ [bucketRow 3600 [500, 500]]) ∧
    (∀ b ∈ [((3600 : Nat), [(500 : Int), 500])], b.2 ≠ [] → (∀ s ∈ b.2, s ≠ 200) →
      bucketRow b.1 b.2 = ⟨b.1, some 0⟩) :=
  none_only_on_synthesized [(3600, [500, 500])] [bucketRow 3600 [500, 500]] rfl
    24 3600 1000000000 SplitBy.Hour

/-- C8: the filled series is a deterministic function of the queried rows and the
bucket window: two calls whose clock readings produce the same candidate bucket
boundaries (the same bucket window) return identical output. -/
theorem fill_data_gaps_deterministic (data : List WebsiteStats)
    (splits no_of_seconds now1 now2 : Nat) (format : SplitBy)
    (h : ∀ i ∈ List.range' 1 23,
      candTime format no_of_seconds now1 i = candTime format no_of_seconds now2 i) :
    fill_data_gaps data splits format no_of_seconds now1 =
      fill_data_gaps data splits format no_of_seconds now2 := by
  rw [fill_data_gaps, fill_data_gaps]
  by_cases hlt : data.length < splits
  · rw [if_pos hlt, if_pos hlt,
      fillLoop_congr format no_of_seconds now1 now2 (List.range' 1 23) data h]
  · rw [if_neg hlt, if_neg hlt]

/-- Witness for the C8 theorem: two clock readings one second apart inside the same
hour give identical output. -/
theorem fill_data_gaps_deterministic_witness :
    fill_data_gaps [] 24 SplitBy.Hour 3600 1000000000 =
      fill_data_gaps [] 24 SplitBy.Hour 3600 1000000001 :=
  fill_data_gaps_deterministic [] 24 3600 1000000000 1000000001 SplitBy.Hour (by decide)

/-- C9: a failed store read in the aggregation or the incident lookup makes
`get_website_by_alias` return a single `ApiError.SQLError` carrying the underlying
error description — rendered as an internal server error (500) response with that
description — and no partial data is returned alongside it. -/
theorem store_read_failure_surfaces (websiteQ : Except String Website)
    (monthlyQ : Except String (List WebsiteStats))
    (incidentsQ : Except String (List Incident))
    (w : Website) (e alias_ : String) (now : Nat) :
    (websiteQ = Except.ok w →
      get_website_by_alias websiteQ (Except.error e) monthlyQ incidentsQ alias_ now =
        Except.error (ApiError.SQLError e)) ∧
    (∀ daily monthly : List WebsiteStats,
      websiteQ = Except.ok w →
      get_website_by_alias websiteQ (Except.ok daily) (Except.ok monthly)
        (Except.error e) alias_ now = Except.error (ApiError.SQLError e)) ∧
    intoResponse (ApiError.SQLError e) = (500, "SQL Error: " ++ e) := by
  refine ⟨?_, ?_, rfl⟩
  · rintro rfl
    rfl
  · intro daily monthly h
    subst h
    rfl

/-- Witness for the C9 theorem at a concrete failing daily-stats read. -/
theorem store_read_failure_surfaces_witness :
    get_website_by_alias (Except.ok ⟨"https://a.test", "a"⟩)
      (Except.error "connection refused") (Except.ok []) (Except.ok []) "a" 0 =
      Except.error (ApiError.SQLError "connection refused") :=
  (store_read_failure_surfaces (Except.ok ⟨"https://a.test", "a"⟩) (Except.ok [])
    (Except.ok []) ⟨"https://a.test", "a"⟩ "connection refused" "a" 0).1 rfl

/-- C10: `fill_data_gaps` never removes or modifies a real data point: its output is
a permutation of the input rows together with some appended synthesized entries,
all of which carry `uptime_pct = none`. -/
theorem fill_data_gaps_preserves_rows (data : List WebsiteStats)
    (splits no_of_seconds now : Nat) (format : SplitBy) :
    ∃ extra : List WebsiteStats,
      (fill_data_gaps data splits format no_of_seconds now).Perm (data ++ extra) ∧
      ∀ x ∈ extra, x.uptime_pct = none := by
  rw [fill_data_gaps]
  by_cases hlt : data.length < splits
  · rw [if_pos hlt]
    obtain ⟨extra, heq, hnone⟩ :=
      fillLoop_eq_append format no_of_seconds now (List.range' 1 23) data
    refine ⟨extra, ?_, hnone⟩
    rw [← heq]
    exact sortDesc_perm _
  · rw [if_neg hlt]
    refine ⟨[], ?_, by simp⟩
    rw [List.append_nil]
